import Mathlib

/-!
Verification development for the mpt-objects-inventory publishing tool
(`build-objects-inventory.py` and `config.py`).

The program is modelled by a shallow embedding: Python strings become
`List Char` (wrapped into `String` at the interfaces), JSON values become the
inductive `Val`, and every network call is abstracted as a value of an explicit
call datatype, so a function that performs HTTP requests is embedded as a pure
function from the parsed responses it consumes to the list of calls it issues.
Nothing is cached or retried in the source, so this is a faithful picture of
the control flow.

The first section defines the Python string primitives the source relies on
(`in`, `str.replace`, `str.split`, `str.count`, `os.path.basename`), spelled
out over `List Char` with structural recursion so that every definition
evaluates by kernel reduction.
-/

/-- Boolean test that the first list is a prefix of the second
(Python slice comparison; used to model substring search). -/
def isPrefixL : List Char → List Char → Bool
  | [], _ => true
  | _ :: _, [] => false
  | a :: as, b :: bs => if a = b then isPrefixL as bs else false

/-- Python `key in s` substring containment over char lists.
The empty pattern is contained in every string, as in Python. -/
def occursInL (k : List Char) : List Char → Bool
  | [] => k.isEmpty
  | c :: cs => isPrefixL k (c :: cs) || occursInL k cs

/-- Characters of `s` strictly before the first occurrence of `sep`;
all of `s` when `sep` does not occur. -/
def beforeFirstL (sep : List Char) : List Char → List Char
  | [] => []
  | c :: cs => if isPrefixL sep (c :: cs) then [] else c :: beforeFirstL sep cs

/-- Characters of `s` strictly after the first occurrence of `sep`;
`[]` when `sep` does not occur. -/
def afterFirstL (sep : List Char) : List Char → List Char
  | [] => []
  | c :: cs =>
    if isPrefixL sep (c :: cs) then (c :: cs).drop sep.length else afterFirstL sep cs

/-- Worker for Python `str.replace` with a non-empty pattern: scans left to
right, replacing non-overlapping occurrences; `skip` counts characters still
owned by the occurrence just replaced. -/
def replaceGo (k v : List Char) : Nat → List Char → List Char
  | _, [] => []
  | skip + 1, _ :: cs => replaceGo k v skip cs
  | 0, c :: cs =>
    if isPrefixL k (c :: cs) then v ++ replaceGo k v (k.length - 1) cs
    else c :: replaceGo k v 0 cs

/-- Python `s.replace(k, v)`: every non-overlapping occurrence of `k` in `s`
is replaced by `v`, leftmost first.  For the empty pattern Python interleaves
`v` around every character, which the first branch reproduces. -/
def replacePy (s k v : List Char) : List Char :=
  if k.isEmpty then v ++ s.flatMap (fun c => c :: v)
  else replaceGo k v 0 s

/-- Worker for Python `str.count` with a non-empty pattern
(non-overlapping occurrences, scanned leftmost first). -/
def countOccGo (k : List Char) : Nat → List Char → Nat
  | _, [] => 0
  | skip + 1, _ :: cs => countOccGo k skip cs
  | 0, c :: cs =>
    if isPrefixL k (c :: cs) then countOccGo k (k.length - 1) cs + 1
    else countOccGo k 0 cs

/-- Python `s.count(k)`; the empty pattern is counted `len(s) + 1` times,
as in Python. -/
def countOccPy (s k : List Char) : Nat :=
  if k.isEmpty then s.length + 1 else countOccGo k 0 s

/-- Prepend a character onto the first segment of a segment list
(helper for the split scanner). -/
def consHeadSeg (c : Char) : List (List Char) → List (List Char)
  | [] => [[c]]
  | h :: t => (c :: h) :: t

/-- Worker for Python `str.split` with a non-empty separator: `skip` counts
characters still owned by the separator occurrence just consumed. -/
def splitGo (sep : List Char) : Nat → List Char → List (List Char)
  | _, [] => [[]]
  | skip + 1, _ :: cs => splitGo sep skip cs
  | 0, c :: cs =>
    if isPrefixL sep (c :: cs) then [] :: splitGo sep (sep.length - 1) cs
    else consHeadSeg c (splitGo sep 0 cs)

/-- Python `s.split(sep)` for a non-empty separator. -/
def splitPy (s sep : List Char) : List (List Char) :=
  splitGo sep 0 s

/-- Python `key in s` on `String`s. -/
def occursInS (k s : String) : Bool :=
  occursInL k.toList s.toList

/-- Python `s.replace(k, v)` on `String`s. -/
def replacePyS (s k v : String) : String :=
  String.mk (replacePy s.toList k.toList v.toList)

/-- Python `s.count(k)` on `String`s. -/
def countOccS (s k : String) : Nat :=
  countOccPy s.toList k.toList

/-- Python (posix) `os.path.basename`: the part of the path after the
last `/`. -/
def basenamePy (p : String) : String :=
  String.mk ((splitPy p.toList ['/']).getLastD [])

/-!
Data model.  `Val` embeds the JSON values a schema file can hold
(`json.load` output); `Err` enumerates the fatal errors the program raises,
one constructor per `raise` site (plus the generic HTTP / IO failures every
`raise_for_status` and file read can produce, which carry no structure the
claims need).
-/

/-- JSON value as produced by `json.load` for an object schema. -/
inductive Val where
  | null : Val
  | bool : Bool → Val
  | num : Int → Val
  | str : String → Val
  | arr : List Val → Val
  | dict : List (String × Val) → Val

/-- Fatal error raised by the program; one constructor per raise site. -/
inductive Err where
  | referenceNotFound (path : String)
  | keyError (key : String)
  | typeError (what : String)
  | keyNotFoundInTemplate (key : String)
  | unmatchedVariables
  | couldNotExtractFileKey
  | couldNotExtractNodeId
  | httpError (code : Int)
  | ioError (what : String)
  deriving DecidableEq, Repr

/-- Message text of the errors whose wording the program fixes. -/
def Err.message : Err → String
  | Err.referenceNotFound path => "Reference not found for path: " ++ path
  | Err.keyError key => "KeyError: " ++ key
  | Err.typeError what => "TypeError: " ++ what
  | Err.keyNotFoundInTemplate key => "Key " ++ key ++ " not found in template"
  | Err.unmatchedVariables => "Unmatched variables found in template"
  | Err.couldNotExtractFileKey => "Could not extract Figma file key from URL"
  | Err.couldNotExtractNodeId => "Could not extract node-id from URL"
  | Err.httpError code => "HTTPError: " ++ toString code
  | Err.ioError what => "IOError: " ++ what

/-- Lookup of a key in a JSON object's entry list (Python `d[key]` combined
with `key in d`; schema dictionaries have unique keys). -/
def lookupEntry : List (String × Val) → String → Option Val
  | [], _ => none
  | (k, v) :: rest, key => if k = key then some v else lookupEntry rest key

/-- Python `isinstance(v, dict) and key in v` followed by `v[key]`:
`none` both when `v` is not a dictionary and when the key is absent. -/
def dictFind : Val → String → Option Val
  | Val.dict entries, key => lookupEntry entries key
  | _, _ => none

/-- Configured placeholder link for schema paths whose value is null
(`Config.MISSING_FIGMA_PAGE_PLACEHOLDER` in `config.py`). -/
def MISSING_FIGMA_PAGE_PLACEHOLDER : String :=
  "https://www.figma.com/design/rHxTpbi2gpbZ4dmVlyeY2S/Object-Diagrams?node-id=14494-411&t=9t14B4asXC7wJTrH-0"

/-- The 16 supported dot-separated schema paths, in source order. -/
def supported_schema_keys : List String :=
  ["desktop.grid-view.vendor",
   "desktop.grid-view.operations",
   "desktop.grid-view.client",
   "desktop.details-view.vendor",
   "desktop.details-view.operations",
   "desktop.details-view.client",
   "desktop.infocard-view.vendor",
   "desktop.infocard-view.operations",
   "desktop.infocard-view.client",
   "state-diagram",
   "mobile.list-view.vendor",
   "mobile.list-view.operations",
   "mobile.list-view.client",
   "mobile.details-view.vendor",
   "mobile.details-view.operations",
   "mobile.details-view.client"]

/-- The `for key in keys` loop of `render_figma_images`: the state is the pair
`(last_key, last_value)`; the Lean `Option Val` of the second component is
`none` exactly when the Python variable `last_value` holds `None` after a
`break` (a dictionary's stored null is `some Val.null`, which the same
Python variable also shows as `None`). -/
def figmaLoop : Option String × Option Val → List String → Option String × Option Val
  | st, [] => st
  | (_, some v), key :: rest =>
    match dictFind v key with
    | some v' => figmaLoop (some key, some v') rest
    | none => (none, none)
  | (_, none), _ :: _ => (none, none)

/-- Key list of a dotted path (`path.split('.')`). -/
def pathKeys (path : String) : List String :=
  (splitPy path.toList ['.']).map (fun cs => String.mk cs)

/-- Per-path body of the loop in `render_figma_images` (source lines 98-116):
traverse the schema along the dotted path; a broken traversal is the fatal
reference-not-found error, a null final value becomes the placeholder link,
any other final value is returned for rendering. -/
def resolveSchemaPath (schema : Val) (path : String) : Except Err Val :=
  match figmaLoop (none, some schema) (pathKeys path) with
  | (none, _) => Except.error (Err.referenceNotFound path)
  | (some _, none) => Except.ok (Val.str MISSING_FIGMA_PAGE_PLACEHOLDER)
  | (some _, some Val.null) => Except.ok (Val.str MISSING_FIGMA_PAGE_PLACEHOLDER)
  | (some _, some v) => Except.ok v

/-- Filename produced for one schema path
(`object_name + '-' + path.replace('.', '-') + '.png'`). -/
def figmaFilename (objectName path : String) : String :=
  objectName ++ "-" ++ String.mk (replacePy path.toList ['.'] ['-']) ++ ".png"

/-- Loop of `render_figma_images` over the supported paths, collecting the
produced filenames in order.  The network render of each resolved link
(`render_figma_png`) is an external effect that does not alter the returned
list, so it is not part of this value. -/
def renderPaths (schema : Val) (objectName : String) : List String → Except Err (List String)
  | [] => Except.ok []
  | path :: rest =>
    match resolveSchemaPath schema path with
    | Except.error e => Except.error e
    | Except.ok _ =>
      match renderPaths schema objectName rest with
      | Except.error e => Except.error e
      | Except.ok files => Except.ok (figmaFilename objectName path :: files)

/-- Embedding of `render_figma_images`: reads `object_schema['name']`, then
processes every supported schema path in order, returning the rendered
filenames.  A missing `name` key is Python's `KeyError`; a non-string `name`
makes the first filename concatenation raise `TypeError` in the source, which
the embedding reports up front since no path processing can be observed
through the return value in that case. -/
def render_figma_images (schema : Val) : Except Err (List String) :=
  match dictFind schema "name" with
  | some (Val.str objectName) => renderPaths schema objectName supported_schema_keys
  | some _ => Except.error (Err.typeError "name")
  | none => Except.error (Err.keyError "name")

/-- Specification-side full traversal of a dotted path: `some` of the final
value when every segment is present, `none` as soon as a segment is absent. -/
def fullyResolves : Val → List String → Option Val
  | v, [] => some v
  | v, key :: rest =>
    match dictFind v key with
    | some v' => fullyResolves v' rest
    | none => none

/-!
Template composition (`populate_template`).  Values of the substitution
dictionary are strings or Python `None`, modelled as `Option String`; the
dictionary iterates in insertion order, modelled as an association list.
The leftover-token check is the regex `findall` on the pattern
"open-brace open-brace, lazily anything, close-brace close-brace", where the
lazy dot cannot cross a newline; `hasUnmatchedVarsL` is that regex as a
scanner: a match exists exactly when a double open brace is followed, with no
intervening newline, by a double close brace.
-/

/-- Open-brace character. -/
def openBrace : Char := '\x7b'

/-- Close-brace character. -/
def closeBrace : Char := '\x7d'

/-- Scanner for the lazy tail of the leftover-token regex: does a double
close brace appear before the next newline? -/
def closesOnLine : List Char → Bool
  | c1 :: c2 :: rest =>
    if c1 = closeBrace ∧ c2 = closeBrace then true
    else if c1 = '\n' then false
    else closesOnLine (c2 :: rest)
  | _ => false

/-- Existence of a leftover template token: some position opens with a double
open brace and a double close brace follows on the same line
(the condition under which the source's `re.findall` result is non-empty). -/
def hasUnmatchedVarsL : List Char → Bool
  | c1 :: c2 :: rest =>
    if c1 = openBrace ∧ c2 = openBrace then
      closesOnLine rest || hasUnmatchedVarsL (c2 :: rest)
    else hasUnmatchedVarsL (c2 :: rest)
  | _ => false

/-- Leftover-token test on `String`s. -/
def hasUnmatchedVarsS (s : String) : Bool :=
  hasUnmatchedVarsL s.toList

/-- Substitution loop of `populate_template`: each key must occur in the
current template text, a null value is rendered as the literal `Undefined`,
and the key's occurrences are replaced. -/
def substFold (template : String) : List (String × Option String) → Except Err String
  | [] => Except.ok template
  | (key, value) :: rest =>
    if occursInS key template then
      substFold (replacePyS template key (value.getD "Undefined")) rest
    else Except.error (Err.keyNotFoundInTemplate key)

/-- Embedding of `populate_template`: run all substitutions, then fail if any
template token remains in the result. -/
def populate_template (template : String) (data : List (String × Option String)) :
    Except Err String :=
  match substFold template data with
  | Except.error e => Except.error e
  | Except.ok t =>
    if hasUnmatchedVarsS t then Except.error Err.unmatchedVariables else Except.ok t

/-!
Figma URL extraction (`get_frame_id_from_url` and the head of
`render_figma_png`).  The two regular expressions of the source are embedded
as leftmost-match scanners over the URL's characters.
-/

/-- Character class of the node-id capture group: digits, colon, hyphen. -/
def isNodeIdChar (c : Char) : Bool :=
  c.isDigit || c = ':' || c = '-'

/-- The three accepted path shapes of the file-key pattern, each the literal
text that must precede the alphanumeric key. -/
def fileKeyVariants : List (List Char) :=
  ["figma.com/file/".toList, "figma.com/proto/".toList, "figma.com/design/".toList]

/-- Capture of a one-or-more character-class group anchored at the current
position: the leading run of matching characters, required non-empty. -/
def runCapture (p : Char → Bool) (r : List Char) : Option (List Char) :=
  if (r.takeWhile p).isEmpty then none else some (r.takeWhile p)

/-- Capture of the file-key group once a variant prefix matched: the leading
alphanumeric run, required non-empty. -/
def keyCapture (r : List Char) : Option (List Char) :=
  runCapture Char.isAlphanum r

/-- Attempt of the file-key pattern anchored at the current position. -/
def fileKeyAt (s : List Char) : Option (List Char) :=
  if isPrefixL "figma.com/file/".toList s then keyCapture (s.drop 15)
  else if isPrefixL "figma.com/proto/".toList s then keyCapture (s.drop 16)
  else if isPrefixL "figma.com/design/".toList s then keyCapture (s.drop 17)
  else none

/-- Leftmost search of the file-key pattern
(`re.search` over the whole URL). -/
def searchFileKey : List Char → Option (List Char)
  | [] => none
  | c :: cs =>
    match fileKeyAt (c :: cs) with
    | some k => some k
    | none => searchFileKey cs

/-- Attempt of the node-id pattern anchored at the current position: the
literal query text followed by a non-empty run of node-id characters. -/
def nodeIdAt (s : List Char) : Option (List Char) :=
  if isPrefixL "node-id=".toList s then runCapture isNodeIdChar (s.drop 8)
  else none

/-- Leftmost search of the node-id pattern. -/
def searchNodeId : List Char → Option (List Char)
  | [] => none
  | c :: cs =>
    match nodeIdAt (c :: cs) with
    | some n => some n
    | none => searchNodeId cs

/-- Embedding of `get_frame_id_from_url`: the captured node id with every
colon percent-encoded, or `none` when the pattern does not match. -/
def get_frame_id_from_url (url : String) : Option String :=
  match searchNodeId url.toList with
  | some n => some (String.mk (replacePy n [':'] "%3A".toList))
  | none => none

/-- Request data assembled by `render_figma_png` before its API call. -/
structure FigmaRequest where
  fileKey : String
  nodeId : String
  deriving DecidableEq, Repr

/-- Head of `render_figma_png` (source lines 46-56): both extractions happen,
and fail fatally, before any network request is issued; on success the value
is the request that the subsequent API call uses. -/
def render_figma_png_request (url : String) : Except Err FigmaRequest :=
  match searchFileKey url.toList with
  | none => Except.error Err.couldNotExtractFileKey
  | some fk =>
    match get_frame_id_from_url url with
    | none => Except.error Err.couldNotExtractNodeId
    | some nid => Except.ok { fileKey := String.mk fk, nodeId := nid }

/-- Key under which `render_figma_png` looks up the image URL in the API
response (`node_id.replace('-', ':')` on source line 72). -/
def figma_image_lookup_key (nodeId : String) : String :=
  replacePyS nodeId "-" ":"

/-!
Confluence interactions.  Every HTTP request the source issues is embedded
as a constructor of a call datatype; a function that performs requests
becomes a pure function from the parsed responses it consumes (passed as
arguments) to the list of calls it issues, in order.
-/

/-- One parsed entry of the attachment query's `results` list. -/
structure AttachmentInfo where
  id : String
  deriving DecidableEq, Repr

/-- Attachment-endpoint call issued by the uploader; `getAttachments` carries
the filename filter of its query string, `postAttachment` the multipart
upload with its minor-edit flag, `deleteAttachment` the `status` query of
`delete_confluence_attachment`. -/
inductive ConfCall where
  | getAttachments (pageId filename : String)
  | deleteAttachment (attachmentId status : String)
  | postAttachment (pageId filename : String) (minorEdit : Bool)
  deriving DecidableEq, Repr

/-- Embedding of `upload_image_version_to_confluence`: query for an existing
attachment of the same basename; when the parsed `results` list is non-empty,
delete the first result in its `current` and then its `trashed` state; then
upload the file as a new minor-edit attachment.  `queryResults` is the parsed
`results` of the query response. -/
def upload_image_version_to_confluence (pageId imagePath : String)
    (queryResults : List AttachmentInfo) : List ConfCall :=
  let filename := basenamePy imagePath
  ConfCall.getAttachments pageId filename ::
    (match queryResults with
     | [] => [ConfCall.postAttachment pageId filename true]
     | r :: _ =>
       [ConfCall.deleteAttachment r.id "current",
        ConfCall.deleteAttachment r.id "trashed",
        ConfCall.postAttachment pageId filename true])

/-- Parsed title and version of the page GET in `update_page_content`. -/
structure PageCurrent where
  title : String
  versionNumber : Int
  deriving DecidableEq, Repr

/-- Payload of the content PUT in `update_page_content`. -/
structure PageUpdatePayload where
  id : String
  type : String
  title : String
  bodyValue : String
  bodyRepresentation : String
  versionNumber : Int
  deriving DecidableEq, Repr

/-- Content-endpoint call issued by the page publisher. -/
inductive PageCall where
  | getPage (pageId : String)
  | putPage (pageId : String) (payload : PageUpdatePayload)
  deriving DecidableEq, Repr

/-- Embedding of `update_page_content`: GET the page's current title and
version, then PUT the full replacement payload.  `current` is the parsed
response of the GET. -/
def update_page_content (pageId newContent : String) (current : PageCurrent) :
    List PageCall :=
  [PageCall.getPage pageId,
   PageCall.putPage pageId
     { id := pageId
       type := "page"
       title := current.title
       bodyValue := newContent
       bodyRepresentation := "storage"
       versionNumber := current.versionNumber + 1 }]

/-- Page-identifier extraction of `download_current_confluence_page`
(source line 199): `url.split('/pages/')[1].split('/')[0]`; `none` embeds the
uncaught `IndexError` when `/pages/` does not occur. -/
def download_page_id (url : String) : Option String :=
  match splitPy url.toList "/pages/".toList with
  | _ :: second :: _ => some (String.mk ((splitPy second ['/']).headD []))
  | _ => none

/-- Page-identifier extraction of `update_confluence_page` (source line 268),
textually the same expression as in the downloader. -/
def update_page_id (url : String) : Option String :=
  match splitPy url.toList "/pages/".toList with
  | _ :: second :: _ => some (String.mk ((splitPy second ['/']).headD []))
  | _ => none

/-- Specification-side description of the extracted identifier: the text
between the first occurrence of `/pages/` and the next `/` or the end. -/
def pageIdSpec (url : String) : String :=
  String.mk (beforeFirstL ['/'] (afterFirstL "/pages/".toList url.toList))

/-- The `for schema_file in all_schema_files` loop of `main`: the body
(schema load, render, download, page update) is abstracted as `step` since it
performs file and network effects; the result pairs the files whose
processing was started, in order, with the error that ended the run, if any.
No exception handler exists anywhere in `main` or its callees. -/
def main_loop (step : String → Except Err Unit) : List String → List String × Option Err
  | [] => ([], none)
  | f :: fs =>
    match step f with
    | Except.error e => ([f], some e)
    | Except.ok _ =>
      let r := main_loop step fs
      (f :: r.1, r.2)

/-- Fully populated schema named "Foo", used as the C2 witness input. -/
def fooRoles : Val :=
  Val.dict [("vendor", Val.str "u"), ("operations", Val.str "u"), ("client", Val.str "u")]

/-- Schema holding every supported path, for the C2 witness. -/
def fooSchema : Val :=
  Val.dict
    [("name", Val.str "Foo"),
     ("state-diagram", Val.str "u"),
     ("desktop", Val.dict
       [("grid-view", fooRoles), ("details-view", fooRoles), ("infocard-view", fooRoles)]),
     ("mobile", Val.dict [("list-view", fooRoles), ("details-view", fooRoles)])]

/-- Filenames rendered for `fooSchema`. -/
def fooFiles : List String :=
  match render_figma_images fooSchema with
  | Except.ok out => out
  | Except.error _ => []

/-- Step function for the C9 witness: fails on the file "b" only. -/
def stepW : String → Except Err Unit := fun s =>
  if s = "b" then Except.error (Err.keyError "k") else Except.ok ()

/-- Page reference used by the C10 witness. -/
def confluencePageUrlW : String :=
  "https://softwareone.atlassian.net/wiki/spaces/S/pages/12345/Subscription"

/-!
Concrete evaluations checking the embedding against hand-computed Python
behaviour.
-/

example : replacePyS "aab" "ab" "b" = "ab" := by decide
example : replacePyS "a.b.c" "." "-" = "a-b-c" := by decide
example : countOccS "aab" "ab" = 1 := by decide
example : splitPy "a/pages/b/c".toList "/pages/".toList = ["a".toList, "b/c".toList] := by
  decide
example : basenamePy "build/Foo-state-diagram.png" = "Foo-state-diagram.png" := by decide
example : occursInS "pages" "a/pages/b" = true := by decide

example : resolveSchemaPath (Val.dict []) "state-diagram" =
    Except.error (Err.referenceNotFound "state-diagram") := by rfl
example : resolveSchemaPath (Val.dict [("state-diagram", Val.null)]) "state-diagram" =
    Except.ok (Val.str MISSING_FIGMA_PAGE_PLACEHOLDER) := by rfl
example : resolveSchemaPath
    (Val.dict [("desktop", Val.dict [("grid-view", Val.dict [("vendor", Val.str "u")])])])
    "desktop.grid-view.vendor" = Except.ok (Val.str "u") := by rfl
example : get_frame_id_from_url "https://figma.com/file/abc?node-id=1:2" = some "1%3A2" := by
  rfl
example : get_frame_id_from_url "https://figma.com/file/abc?node-id=14494-411" =
    some "14494-411" := by rfl
example : searchFileKey "https://www.figma.com/design/abc123/Obj?node-id=1-2".toList =
    some "abc123".toList := by rfl
example : figma_image_lookup_key "1%3A2" = "1%3A2" := by rfl
example : figma_image_lookup_key "14494-411" = "14494:411" := by rfl
example : download_page_id "https://x.atlassian.net/wiki/spaces/S/pages/12345/Obj" =
    some "12345" := by rfl
example : download_page_id "https://x.atlassian.net/wiki/spaces/S" = none := by rfl
example : hasUnmatchedVarsS "a\x7b\x7bx\x7d\x7db" = true := by rfl
example : hasUnmatchedVarsS "a\x7bx\x7db" = false := by rfl
example : hasUnmatchedVarsS "\x7b\x7ba\nb\x7d\x7d" = false := by rfl
example : populate_template "A \x7b\x7bk\x7d\x7d B" [("\x7b\x7bk\x7d\x7d", some "v")] = Except.ok "A v B" := by rfl
example : populate_template "A \x7b\x7bk\x7d\x7d B" [("\x7b\x7bq\x7d\x7d", some "v")] =
    Except.error (Err.keyNotFoundInTemplate "\x7b\x7bq\x7d\x7d") := by rfl
example : populate_template "A \x7b\x7bk\x7d\x7d \x7b\x7bj\x7d\x7d" [("\x7b\x7bk\x7d\x7d", some "v")] =
    Except.error Err.unmatchedVariables := by rfl
example : populate_template "A \x7b\x7bk\x7d\x7d B" [("\x7b\x7bk\x7d\x7d", none)] = Except.ok "A Undefined B" := by
  rfl

/-!
Helper lemmas about the string machinery.
-/

theorem isPrefixL_iff {p s : List Char} : isPrefixL p s = true ↔ ∃ t, s = p ++ t := by
  induction p generalizing s with
  | nil => simp [isPrefixL]
  | cons a as ih =>
    cases s with
    | nil => simp [isPrefixL]
    | cons b bs =>
      simp only [isPrefixL]
      by_cases hab : a = b
      · subst hab
        rw [if_pos rfl, ih]
        constructor
        · rintro ⟨t, rfl⟩
          exact ⟨t, rfl⟩
        · rintro ⟨t, ht⟩
          simp only [List.cons_append, List.cons.injEq] at ht
          exact ⟨t, ht.2⟩
      · rw [if_neg hab]
        constructor
        · intro h
          exact absurd h (by simp)
        · rintro ⟨t, ht⟩
          simp only [List.cons_append, List.cons.injEq] at ht
          exact absurd ht.1.symm hab

theorem occursInL_nil_pattern (s : List Char) : occursInL [] s = true := by
  cases s with
  | nil => rfl
  | cons c cs => simp [occursInL, isPrefixL]

theorem replaceGo_of_not_occurs {k : List Char} (v : List Char) {s : List Char}
    (h : occursInL k s = false) : replaceGo k v 0 s = s := by
  induction s with
  | nil => rfl
  | cons c cs ih =>
    simp only [occursInL, Bool.or_eq_false_iff] at h
    have hne : ¬ isPrefixL k (c :: cs) = true := by simp [h.1]
    simp only [replaceGo, if_neg hne, ih h.2]

theorem replacePy_of_not_occurs {s k : List Char} (v : List Char)
    (h : occursInL k s = false) : replacePy s k v = s := by
  have hk : k.isEmpty = false := by
    cases k with
    | nil => rw [occursInL_nil_pattern] at h; exact absurd h (by simp)
    | cons a as => rfl
  rw [replacePy, if_neg (by simp [hk])]
  exact replaceGo_of_not_occurs v h

theorem not_occurs_single_of_forall_ne {x : Char} {s : List Char}
    (h : ∀ c ∈ s, c ≠ x) : occursInL [x] s = false := by
  induction s with
  | nil => rfl
  | cons c cs ih =>
    have hc : c ≠ x := h c (List.mem_cons_self c cs)
    have hxc : ¬ x = c := fun hxc => hc hxc.symm
    simp only [occursInL, Bool.or_eq_false_iff]
    exact ⟨by simp [isPrefixL, hxc], ih (fun d hd => h d (List.mem_cons_of_mem c hd))⟩

theorem splitGo_skip (sep : List Char) (n : Nat) (s : List Char) :
    splitGo sep n s = splitGo sep 0 (s.drop n) := by
  induction s generalizing n with
  | nil => cases n <;> rfl
  | cons c cs ih =>
    cases n with
    | zero => rfl
    | succ m =>
      show splitGo sep m cs = _
      rw [ih m, List.drop_succ_cons]

theorem splitGo_ne_nil (sep : List Char) (n : Nat) (s : List Char) :
    splitGo sep n s ≠ [] := by
  induction s generalizing n with
  | nil => cases n <;> simp [splitGo]
  | cons c cs ih =>
    cases n with
    | zero =>
      show (if isPrefixL sep (c :: cs) = true then _ else consHeadSeg c (splitGo sep 0 cs)) ≠ []
      by_cases hp : isPrefixL sep (c :: cs) = true
      · rw [if_pos hp]; simp
      · rw [if_neg hp]
        cases hgo : splitGo sep 0 cs <;> simp [consHeadSeg]
    | succ m => exact ih m

theorem headD_consHeadSeg (c : Char) (l : List (List Char)) :
    (consHeadSeg c l).headD [] = c :: l.headD [] := by
  cases l <;> rfl

theorem splitGo_headD (sep : List Char) (s : List Char) :
    (splitGo sep 0 s).headD [] = beforeFirstL sep s := by
  induction s with
  | nil => rfl
  | cons c cs ih =>
    show (if isPrefixL sep (c :: cs) = true then
        [] :: splitGo sep (sep.length - 1) cs
      else consHeadSeg c (splitGo sep 0 cs)).headD [] = _
    by_cases hp : isPrefixL sep (c :: cs) = true
    · rw [if_pos hp]
      simp [beforeFirstL, hp]
    · rw [if_neg hp]
      rw [headD_consHeadSeg, ih]
      simp [beforeFirstL, hp]

theorem splitGo_of_occurs {sep s : List Char} (hsep : sep ≠ [])
    (h : occursInL sep s = true) :
    splitGo sep 0 s = beforeFirstL sep s :: splitGo sep 0 (afterFirstL sep s) := by
  induction s with
  | nil =>
    rw [occursInL] at h
    exact absurd h (by simp [List.isEmpty_iff, hsep])
  | cons c cs ih =>
    by_cases hp : isPrefixL sep (c :: cs) = true
    · show (if isPrefixL sep (c :: cs) = true then
          [] :: splitGo sep (sep.length - 1) cs
        else consHeadSeg c (splitGo sep 0 cs)) = _
      rw [if_pos hp]
      have hb : beforeFirstL sep (c :: cs) = [] := by simp [beforeFirstL, hp]
      have ha : afterFirstL sep (c :: cs) = (c :: cs).drop sep.length := by
        simp [afterFirstL, hp]
      rw [hb, ha, splitGo_skip]
      obtain ⟨a, as, rfl⟩ : ∃ a as, sep = a :: as := by
        cases sep with
        | nil => exact absurd rfl hsep
        | cons a as => exact ⟨a, as, rfl⟩
      simp [List.drop_succ_cons]
    · have hocc : occursInL sep cs = true := by
        rw [occursInL, Bool.or_eq_true] at h
        cases h with
        | inl h => exact absurd h hp
        | inr h => exact h
      show (if isPrefixL sep (c :: cs) = true then
          [] :: splitGo sep (sep.length - 1) cs
        else consHeadSeg c (splitGo sep 0 cs)) = _
      rw [if_neg hp, ih hocc]
      have hb : beforeFirstL sep (c :: cs) = c :: beforeFirstL sep cs := by
        simp [beforeFirstL, hp]
      have ha : afterFirstL sep (c :: cs) = afterFirstL sep cs := by
        simp [afterFirstL, hp]
      rw [hb, ha]
      rfl

theorem splitGo_of_not_occurs {sep s : List Char} (h : occursInL sep s = false) :
    splitGo sep 0 s = [s] := by
  induction s with
  | nil => rfl
  | cons c cs ih =>
    simp only [occursInL, Bool.or_eq_false_iff] at h
    show (if isPrefixL sep (c :: cs) = true then
        [] :: splitGo sep (sep.length - 1) cs
      else consHeadSeg c (splitGo sep 0 cs)) = _
    rw [if_neg (by simp [h.1]), ih h.2]
    rfl

theorem beforeFirst_single_beforeFirst {x : Char} {rest : List Char} (s : List Char) :
    beforeFirstL [x] (beforeFirstL (x :: rest) s) = beforeFirstL [x] s := by
  induction s with
  | nil => rfl
  | cons c cs ih =>
    by_cases hp : isPrefixL (x :: rest) (c :: cs) = true
    · have hxc : x = c := by
        rw [isPrefixL] at hp
        by_cases hxc : x = c
        · exact hxc
        · rw [if_neg hxc] at hp; exact absurd hp (by simp)
      rw [show beforeFirstL (x :: rest) (c :: cs) = [] from by simp [beforeFirstL, hp]]
      rw [show beforeFirstL [x] (c :: cs) = [] from by
        simp [beforeFirstL, isPrefixL, if_pos hxc]]
      rfl
    · rw [show beforeFirstL (x :: rest) (c :: cs) = c :: beforeFirstL (x :: rest) cs from by
        simp [beforeFirstL, hp]]
      by_cases hxc : x = c
      · rw [show ∀ l, beforeFirstL [x] (c :: l) = [] from fun l => by
          simp [beforeFirstL, isPrefixL, if_pos hxc]]
        rw [show beforeFirstL [x] (c :: cs) = [] from by
          simp [beforeFirstL, isPrefixL, if_pos hxc]]
      · have hpx : ∀ l : List Char, isPrefixL [x] (c :: l) = false := by
          intro l
          simp [isPrefixL, hxc]
        rw [show beforeFirstL [x] (c :: beforeFirstL (x :: rest) cs) =
            c :: beforeFirstL [x] (beforeFirstL (x :: rest) cs) from by
          simp [beforeFirstL, hpx]]
        rw [ih]
        simp [beforeFirstL, hpx]

theorem figmaLoop_fullyResolves (keys : List String) (v : Val) (lk : Option String)
    (hk : keys ≠ []) :
    (fullyResolves v keys = none ∧ figmaLoop (lk, some v) keys = (none, none)) ∨
    (∃ k w, fullyResolves v keys = some w ∧ figmaLoop (lk, some v) keys = (some k, some w)) := by
  induction keys generalizing v lk with
  | nil => exact absurd rfl hk
  | cons key rest ih =>
    cases hd : dictFind v key with
    | none =>
      left
      constructor
      · simp [fullyResolves, hd]
      · simp [figmaLoop, hd]
    | some v' =>
      have hfr : fullyResolves v (key :: rest) = fullyResolves v' rest := by
        simp [fullyResolves, hd]
      have hfl : figmaLoop (lk, some v) (key :: rest) = figmaLoop (some key, some v') rest := by
        simp [figmaLoop, hd]
      cases rest with
      | nil =>
        right
        exact ⟨key, v', by simp [hfr, fullyResolves, hd], by simp [hfl, figmaLoop, hd]⟩
      | cons r rs =>
        rw [hfr, hfl]
        exact ih v' (some key) (by simp)

theorem substFold_append (t : String) (xs ys : List (String × Option String)) :
    substFold t (xs ++ ys) =
      match substFold t xs with
      | Except.ok t' => substFold t' ys
      | Except.error e => Except.error e := by
  induction xs generalizing t with
  | nil => rfl
  | cons p rest ih =>
    obtain ⟨key, value⟩ := p
    simp only [List.cons_append]
    by_cases hk : occursInS key t = true
    · rw [show substFold t ((key, value) :: (rest ++ ys)) =
          substFold (replacePyS t key (value.getD "Undefined")) (rest ++ ys) from by
        simp [substFold, hk]]
      rw [ih]
      rw [show substFold t ((key, value) :: rest) =
          substFold (replacePyS t key (value.getD "Undefined")) rest from by
        simp [substFold, hk]]
    · rw [show substFold t ((key, value) :: (rest ++ ys)) =
          Except.error (Err.keyNotFoundInTemplate key) from by simp [substFold, hk]]
      rw [show substFold t ((key, value) :: rest) =
          Except.error (Err.keyNotFoundInTemplate key) from by simp [substFold, hk]]

theorem renderPaths_ok_map {schema : Val} {objectName : String} {ps : List String}
    {out : List String} (h : renderPaths schema objectName ps = Except.ok out) :
    out = ps.map (figmaFilename objectName) := by
  induction ps generalizing out with
  | nil =>
    simp only [renderPaths] at h
    cases h
    rfl
  | cons p rest ih =>
    simp only [renderPaths] at h
    cases hr : resolveSchemaPath schema p with
    | error e => rw [hr] at h; exact absurd h (by simp)
    | ok v =>
      rw [hr] at h
      cases hrest : renderPaths schema objectName rest with
      | error e => rw [hrest] at h; exact absurd h (by simp)
      | ok files =>
        rw [hrest] at h
        cases h
        rw [List.map_cons, ih hrest]

/-!
Claim theorems.
-/

/-- C1: for every object schema and every supported schema path, a traversal
that hits an absent segment (including the last) makes the per-path
processing of `render_figma_images` fail with a ValueError whose message is
exactly "Reference not found for path: " followed by that path; a traversal
that resolves every segment to a null final value yields the configured
placeholder URL and no error. -/
theorem claim_c1_schema_path_resolution (schema : Val) (path : String)
    (_hmem : path ∈ supported_schema_keys) :
    (fullyResolves schema (pathKeys path) = none →
      resolveSchemaPath schema path = Except.error (Err.referenceNotFound path) ∧
      (Err.referenceNotFound path).message = "Reference not found for path: " ++ path) ∧
    (fullyResolves schema (pathKeys path) = some Val.null →
      resolveSchemaPath schema path = Except.ok (Val.str MISSING_FIGMA_PAGE_PLACEHOLDER)) := by
  have hne : pathKeys path ≠ [] := by
    unfold pathKeys splitPy
    intro h
    exact splitGo_ne_nil ['.'] 0 path.toList (List.map_eq_nil_iff.mp h)
  constructor
  · intro hnone
    rcases figmaLoop_fullyResolves (pathKeys path) schema none hne with ⟨h1, h2⟩ | ⟨k, w, h1, h2⟩
    · refine ⟨?_, rfl⟩
      unfold resolveSchemaPath
      rw [h2]
    · rw [hnone] at h1
      exact absurd h1 (by simp)
  · intro hnull
    rcases figmaLoop_fullyResolves (pathKeys path) schema none hne with ⟨h1, h2⟩ | ⟨k, w, h1, h2⟩
    · rw [hnull] at h1
      exact absurd h1 (by simp)
    · rw [hnull] at h1
      injection h1 with hw
      subst hw
      unfold resolveSchemaPath
      rw [h2]

/-- Witness for C1 at the path "state-diagram": an empty schema hits an
absent segment and produces the reference-not-found error; a schema holding
null at that key produces the placeholder URL. -/
theorem claim_c1_schema_path_resolution_witness :
    resolveSchemaPath (Val.dict []) "state-diagram" =
      Except.error (Err.referenceNotFound "state-diagram") ∧
    resolveSchemaPath (Val.dict [("state-diagram", Val.null)]) "state-diagram" =
      Except.ok (Val.str MISSING_FIGMA_PAGE_PLACEHOLDER) :=
  ⟨((claim_c1_schema_path_resolution (Val.dict []) "state-diagram" (by decide)).1 (by rfl)).1,
   (claim_c1_schema_path_resolution (Val.dict [("state-diagram", Val.null)]) "state-diagram"
      (by decide)).2 (by rfl)⟩

/-- C2: when `render_figma_images` succeeds on a schema whose name is
`objectName`, it returns exactly the 16 filenames obtained by joining the
name and the path (with dots turned into dashes) with a dash and appending
".png", one per supported schema path, in the order of
`supported_schema_keys`; in particular the name "Foo" and the path
"desktop.grid-view.vendor" yield "Foo-desktop-grid-view-vendor.png". -/
theorem claim_c2_render_filenames (schema : Val) (objectName : String) (out : List String)
    (hname : dictFind schema "name" = some (Val.str objectName))
    (hok : render_figma_images schema = Except.ok out) :
    out = supported_schema_keys.map
      (fun p => objectName ++ "-" ++ String.mk (replacePy p.toList ['.'] ['-']) ++ ".png") ∧
    out.length = 16 ∧
    figmaFilename "Foo" "desktop.grid-view.vendor" = "Foo-desktop-grid-view-vendor.png" := by
  unfold render_figma_images at hok
  rw [hname] at hok
  have hmap := renderPaths_ok_map hok
  refine ⟨hmap, ?_, rfl⟩
  rw [hmap, List.length_map]
  rfl

/-- Witness for C2: rendering succeeds on the fully populated "Foo" schema
and returns the 16 deterministic filenames in order. -/
theorem claim_c2_render_filenames_witness :
    render_figma_images fooSchema = Except.ok fooFiles ∧
    fooFiles = supported_schema_keys.map
      (fun p => "Foo" ++ "-" ++ String.mk (replacePy p.toList ['.'] ['-']) ++ ".png") ∧
    fooFiles.length = 16 :=
  ⟨rfl,
   (claim_c2_render_filenames fooSchema "Foo" fooFiles rfl rfl).1,
   (claim_c2_render_filenames fooSchema "Foo" fooFiles rfl rfl).2.1⟩

/-- C3: `populate_template` fails naming the key when any key of the mapping
is absent from the progressively substituted template text; it renders a null
value as the literal text "Undefined"; and when all substitutions go through
it fails with the unmatched-variables error exactly when a leftover template
token remains, returning the substituted text otherwise. -/
theorem claim_c3_populate_template_contract :
    (∀ (template : String) (pre : List (String × Option String)) (key : String)
        (value : Option String) (rest : List (String × Option String)) (t' : String),
        substFold template pre = Except.ok t' →
        occursInS key t' = false →
        populate_template template (pre ++ (key, value) :: rest) =
          Except.error (Err.keyNotFoundInTemplate key)) ∧
    (∀ (t key : String) (rest : List (String × Option String)),
        occursInS key t = true →
        substFold t ((key, none) :: rest) = substFold (replacePyS t key "Undefined") rest) ∧
    (∀ (template : String) (data : List (String × Option String)) (t' : String),
        substFold template data = Except.ok t' →
        populate_template template data =
          (if hasUnmatchedVarsS t' then Except.error Err.unmatchedVariables
           else Except.ok t')) := by
  refine ⟨?_, ?_, ?_⟩
  · intro template pre key value rest t' hpre hkey
    have hall : substFold template (pre ++ (key, value) :: rest) =
        Except.error (Err.keyNotFoundInTemplate key) := by
      rw [substFold_append, hpre]
      simp [substFold, hkey]
    unfold populate_template
    rw [hall]
  · intro t key rest hkey
    simp [substFold, hkey]
  · intro template data t' hdata
    unfold populate_template
    rw [hdata]

/-- Witness for C3: a missing key fails naming it, a null value substitutes
to "Undefined", and a clean substitution returns the text. -/
theorem claim_c3_populate_template_contract_witness :
    populate_template "A" [("K", some "v")] =
      Except.error (Err.keyNotFoundInTemplate "K") ∧
    substFold "xKy" [("K", none)] = substFold (replacePyS "xKy" "K" "Undefined") [] ∧
    populate_template "B" [] = (if hasUnmatchedVarsS "B" then
      Except.error Err.unmatchedVariables else Except.ok "B") :=
  ⟨claim_c3_populate_template_contract.1 "A" [] "K" (some "v") [] "A" rfl (by rfl),
   claim_c3_populate_template_contract.2.1 "xKy" "K" [] (by rfl),
   claim_c3_populate_template_contract.2.2 "B" [] "B" rfl⟩

/-- C4: with one or more query results, the uploader issues the query, then
exactly two deletes of the first result (status "current" then "trashed"),
then the minor-edit multipart upload; with no results it issues the query and
the upload only. -/
theorem claim_c4_attachment_upload_calls (pageId imagePath : String)
    (r : AttachmentInfo) (rest : List AttachmentInfo) :
    upload_image_version_to_confluence pageId imagePath (r :: rest) =
      [ConfCall.getAttachments pageId (basenamePy imagePath),
       ConfCall.deleteAttachment r.id "current",
       ConfCall.deleteAttachment r.id "trashed",
       ConfCall.postAttachment pageId (basenamePy imagePath) true] ∧
    upload_image_version_to_confluence pageId imagePath [] =
      [ConfCall.getAttachments pageId (basenamePy imagePath),
       ConfCall.postAttachment pageId (basenamePy imagePath) true] :=
  ⟨rfl, rfl⟩

/-- C5: `update_page_content` first issues the page GET and then the PUT
whose payload carries the fetched title unchanged, the new body under the
storage representation, and the fetched version number plus one. -/
theorem claim_c5_page_update_payload (pageId newContent : String) (current : PageCurrent) :
    update_page_content pageId newContent current =
      [PageCall.getPage pageId,
       PageCall.putPage pageId
         { id := pageId
           type := "page"
           title := current.title
           bodyValue := newContent
           bodyRepresentation := "storage"
           versionNumber := current.versionNumber + 1 }] :=
  rfl

/-- C9: `main` processes schema files strictly in order with no recovery:
when every file before `f` succeeds and `f` fails with any error, the files
processed are exactly those before `f` plus `f` itself, the run ends with
that error, and no later file is ever opened. -/
theorem claim_c9_no_per_file_isolation (step : String → Except Err Unit)
    (pre : List String) (f : String) (post : List String) (e : Err)
    (hpre : ∀ g ∈ pre, step g = Except.ok ())
    (hf : step f = Except.error e) :
    main_loop step (pre ++ f :: post) = (pre ++ [f], some e) := by
  induction pre with
  | nil =>
    simp only [List.nil_append, main_loop]
    rw [hf]
  | cons g gs ih =>
    have hg : step g = Except.ok () := hpre g (List.mem_cons_self g gs)
    have hih := ih (fun x hx => hpre x (List.mem_cons_of_mem g hx))
    simp [main_loop, hg, hih]

/-- Witness for C9: with files "a", "b", "c" and a failure on "b", only "a"
and "b" are processed and the run aborts; "c" is never opened. -/
theorem claim_c9_no_per_file_isolation_witness :
    main_loop stepW ["a", "b", "c"] = (["a", "b"], some (Err.keyError "k")) :=
  claim_c9_no_per_file_isolation stepW ["a"] "b" ["c"] (Err.keyError "k")
    (by
      intro g hg
      rw [List.mem_singleton] at hg
      subst hg
      rfl)
    (by rfl)

/-- C10: whenever the page reference contains "/pages/", both extraction
sites use as page identifier exactly the text between the first occurrence
of "/pages/" and the next "/" or the end of the string, with no numeric or
non-emptiness check; when "/pages/" is absent, both fail with the uncaught
out-of-range indexing error (embedded as `none`) instead of a named error. -/
theorem claim_c10_page_id_extraction (url : String) :
    (occursInS "/pages/" url = true →
      download_page_id url = some (pageIdSpec url) ∧
      update_page_id url = some (pageIdSpec url)) ∧
    (occursInS "/pages/" url = false →
      download_page_id url = none ∧ update_page_id url = none) := by
  have hupdate : update_page_id url = download_page_id url := rfl
  constructor
  · intro h
    have hocc : occursInL "/pages/".toList url.toList = true := h
    have hsplit := @splitGo_of_occurs "/pages/".toList url.toList (by decide) hocc
    have hdl : download_page_id url = some (pageIdSpec url) := by
      cases hafter : splitGo "/pages/".toList 0 (afterFirstL "/pages/".toList url.toList) with
      | nil => exact absurd hafter (splitGo_ne_nil _ _ _)
      | cons h2 t2 =>
        rw [hafter] at hsplit
        have hh2 : h2 = beforeFirstL "/pages/".toList
            (afterFirstL "/pages/".toList url.toList) := by
          have hhd := splitGo_headD "/pages/".toList
            (afterFirstL "/pages/".toList url.toList)
          rw [hafter] at hhd
          simpa using hhd
        have hkey : (splitGo ['/'] 0 h2).headD [] =
            beforeFirstL ['/'] (afterFirstL "/pages/".toList url.toList) := by
          rw [splitGo_headD, hh2]
          exact @beforeFirst_single_beforeFirst '/' "pages/".toList _
        unfold download_page_id splitPy
        rw [hsplit]
        unfold pageIdSpec
        rw [← hkey]
    exact ⟨hdl, hupdate.trans hdl⟩
  · intro h
    have hocc : occursInL "/pages/".toList url.toList = false := h
    have hdl : download_page_id url = none := by
      unfold download_page_id splitPy
      rw [splitGo_of_not_occurs hocc]
    exact ⟨hdl, hupdate.trans hdl⟩

/-- Witness for C10: on a concrete page reference both extraction sites
return the text between "/pages/" and the next slash. -/
theorem claim_c10_page_id_extraction_witness :
    download_page_id confluencePageUrlW = some "12345" ∧
    update_page_id confluencePageUrlW = some "12345" := by
  have h := (claim_c10_page_id_extraction confluencePageUrlW).1 (by rfl)
  exact ⟨h.1.trans (by rfl), h.2.trans (by rfl)⟩

theorem runCapture_decomp {p : Char → Bool} {r k : List Char}
    (h : runCapture p r = some k) :
    k ≠ [] ∧ (∀ c ∈ k, p c = true) ∧ r = k ++ r.dropWhile p := by
  unfold runCapture at h
  by_cases he : (r.takeWhile p).isEmpty = true
  · rw [if_pos he] at h
    exact absurd h (by simp)
  · rw [if_neg he] at h
    injection h with h'
    subst h'
    refine ⟨?_, ?_, (List.takeWhile_append_dropWhile p r).symm⟩
    · intro hk
      rw [hk] at he
      exact he rfl
    · intro c hc
      exact List.mem_takeWhile_imp hc

theorem fileKeyAt_decomp {s k : List Char} (h : fileKeyAt s = some k) :
    ∃ v rest, v ∈ fileKeyVariants ∧ s = v ++ (k ++ rest) ∧ k ≠ [] ∧
      ∀ c ∈ k, Char.isAlphanum c = true := by
  unfold fileKeyAt keyCapture at h
  by_cases h1 : isPrefixL "figma.com/file/".toList s = true
  · rw [if_pos h1] at h
    obtain ⟨t, rfl⟩ := isPrefixL_iff.mp h1
    rw [List.drop_left' (by rfl)] at h
    obtain ⟨hk1, hk2, hk3⟩ := runCapture_decomp h
    exact ⟨"figma.com/file/".toList, t.dropWhile Char.isAlphanum,
      by simp [fileKeyVariants], by rw [← hk3], hk1, hk2⟩
  · rw [if_neg h1] at h
    by_cases h2 : isPrefixL "figma.com/proto/".toList s = true
    · rw [if_pos h2] at h
      obtain ⟨t, rfl⟩ := isPrefixL_iff.mp h2
      rw [List.drop_left' (by rfl)] at h
      obtain ⟨hk1, hk2, hk3⟩ := runCapture_decomp h
      exact ⟨"figma.com/proto/".toList, t.dropWhile Char.isAlphanum,
        by simp [fileKeyVariants], by rw [← hk3], hk1, hk2⟩
    · rw [if_neg h2] at h
      by_cases h3 : isPrefixL "figma.com/design/".toList s = true
      · rw [if_pos h3] at h
        obtain ⟨t, rfl⟩ := isPrefixL_iff.mp h3
        rw [List.drop_left' (by rfl)] at h
        obtain ⟨hk1, hk2, hk3⟩ := runCapture_decomp h
        exact ⟨"figma.com/design/".toList, t.dropWhile Char.isAlphanum,
          by simp [fileKeyVariants], by rw [← hk3], hk1, hk2⟩
      · rw [if_neg h3] at h
        exact absurd h (by simp)

theorem searchFileKey_decomp {s k : List Char} (h : searchFileKey s = some k) :
    ∃ pre v rest, v ∈ fileKeyVariants ∧ s = pre ++ (v ++ (k ++ rest)) ∧ k ≠ [] ∧
      ∀ c ∈ k, Char.isAlphanum c = true := by
  induction s with
  | nil => exact absurd h (by simp [searchFileKey])
  | cons c cs ih =>
    unfold searchFileKey at h
    cases hat : fileKeyAt (c :: cs) with
    | some k' =>
      rw [hat] at h
      injection h with h'
      subst h'
      obtain ⟨v, rest, hv, hs, hk1, hk2⟩ := fileKeyAt_decomp hat
      exact ⟨[], v, rest, hv, by simpa using hs, hk1, hk2⟩
    | none =>
      rw [hat] at h
      obtain ⟨pre, v, rest, hv, hs, hk1, hk2⟩ := ih h
      exact ⟨c :: pre, v, rest, hv, by rw [List.cons_append, hs], hk1, hk2⟩

theorem nodeIdAt_decomp {s n : List Char} (h : nodeIdAt s = some n) :
    ∃ rest, s = "node-id=".toList ++ (n ++ rest) ∧ n ≠ [] ∧
      ∀ c ∈ n, isNodeIdChar c = true := by
  unfold nodeIdAt at h
  by_cases h1 : isPrefixL "node-id=".toList s = true
  · rw [if_pos h1] at h
    obtain ⟨t, rfl⟩ := isPrefixL_iff.mp h1
    rw [List.drop_left' (by rfl)] at h
    obtain ⟨hn1, hn2, hn3⟩ := runCapture_decomp h
    exact ⟨t.dropWhile isNodeIdChar, by rw [← hn3], hn1, hn2⟩
  · rw [if_neg h1] at h
    exact absurd h (by simp)

theorem searchNodeId_decomp {s n : List Char} (h : searchNodeId s = some n) :
    ∃ pre rest, s = pre ++ ("node-id=".toList ++ (n ++ rest)) ∧ n ≠ [] ∧
      ∀ c ∈ n, isNodeIdChar c = true := by
  induction s with
  | nil => exact absurd h (by simp [searchNodeId])
  | cons c cs ih =>
    unfold searchNodeId at h
    cases hat : nodeIdAt (c :: cs) with
    | some n' =>
      rw [hat] at h
      injection h with h'
      subst h'
      obtain ⟨rest, hs, hn1, hn2⟩ := nodeIdAt_decomp hat
      exact ⟨[], rest, by simpa using hs, hn1, hn2⟩
    | none =>
      rw [hat] at h
      obtain ⟨pre, rest, hs, hn1, hn2⟩ := ih h
      exact ⟨c :: pre, rest, by rw [List.cons_append, hs], hn1, hn2⟩

/-- C6: a file key is extracted only when the URL contains one of exactly the
three path variants followed by a non-empty alphanumeric key, and a node
identifier only when the URL contains "node-id=" followed by a non-empty run
of digits, colons and hyphens; a failed file-key extraction raises the fatal
file-key ValueError and a failed node-id extraction (after a successful
file-key extraction) raises the fatal node-id ValueError, both returned
before the request value that the API call would use is ever built. -/
theorem claim_c6_url_extraction :
    (∀ (url : String) (k : List Char), searchFileKey url.toList = some k →
      ∃ pre v rest, v ∈ fileKeyVariants ∧ url.toList = pre ++ (v ++ (k ++ rest)) ∧
        k ≠ [] ∧ ∀ c ∈ k, Char.isAlphanum c = true) ∧
    (∀ (url : String) (n : List Char), searchNodeId url.toList = some n →
      ∃ pre rest, url.toList = pre ++ ("node-id=".toList ++ (n ++ rest)) ∧
        n ≠ [] ∧ ∀ c ∈ n, isNodeIdChar c = true) ∧
    (∀ url : String, searchFileKey url.toList = none →
      render_figma_png_request url = Except.error Err.couldNotExtractFileKey ∧
      Err.couldNotExtractFileKey.message = "Could not extract Figma file key from URL") ∧
    (∀ (url : String) (k : List Char), searchFileKey url.toList = some k →
      get_frame_id_from_url url = none →
      render_figma_png_request url = Except.error Err.couldNotExtractNodeId ∧
      Err.couldNotExtractNodeId.message = "Could not extract node-id from URL") := by
  refine ⟨?_, ?_, ?_, ?_⟩
  · intro url k h
    exact searchFileKey_decomp h
  · intro url n h
    exact searchNodeId_decomp h
  · intro url h
    refine ⟨?_, rfl⟩
    unfold render_figma_png_request
    rw [h]
  · intro url k hk hn
    refine ⟨?_, rfl⟩
    unfold render_figma_png_request
    rw [hk, hn]

/-- Witness for C6: the file key and node id are extracted on a URL using
one of the three variants; a URL without the pattern fails with the file-key
error; a URL with a file key but no node-id parameter fails with the node-id
error. -/
theorem claim_c6_url_extraction_witness :
    (∃ pre v rest, v ∈ fileKeyVariants ∧
      "https://www.figma.com/design/abc123/Obj?node-id=1-2".toList =
        pre ++ (v ++ ("abc123".toList ++ rest)) ∧
      "abc123".toList ≠ [] ∧ ∀ c ∈ "abc123".toList, Char.isAlphanum c = true) ∧
    (∃ pre rest, "https://www.figma.com/design/abc123/Obj?node-id=1-2".toList =
        pre ++ ("node-id=".toList ++ ("1-2".toList ++ rest)) ∧
      "1-2".toList ≠ [] ∧ ∀ c ∈ "1-2".toList, isNodeIdChar c = true) ∧
    render_figma_png_request "http://example.com/x" =
      Except.error Err.couldNotExtractFileKey ∧
    render_figma_png_request "https://figma.com/file/abc" =
      Except.error Err.couldNotExtractNodeId :=
  ⟨claim_c6_url_extraction.1 "https://www.figma.com/design/abc123/Obj?node-id=1-2"
      "abc123".toList (by rfl),
   claim_c6_url_extraction.2.1 "https://www.figma.com/design/abc123/Obj?node-id=1-2"
      "1-2".toList (by rfl),
   (claim_c6_url_extraction.2.2.1 "http://example.com/x" (by rfl)).1,
   (claim_c6_url_extraction.2.2.2 "https://figma.com/file/abc" "abc".toList
      (by rfl) (by rfl)).1⟩

/-- C7 counterexample: for a URL whose node-id parameter is written with a
colon, the captured node id is "1:2", the extracted identifier is "1%3A2",
and the lookup key computed from it by replacing hyphens with colons is
"1%3A2" — not the colon-delimited node identifier "1:2".  The claim's
"regardless of whether the node-id was written with hyphens or with colons"
is therefore false. -/
theorem claim_c7_lookup_key_counterexample :
    searchNodeId "https://figma.com/file/abc?node-id=1:2".toList = some "1:2".toList ∧
    get_frame_id_from_url "https://figma.com/file/abc?node-id=1:2" = some "1%3A2" ∧
    figma_image_lookup_key "1%3A2" = "1%3A2" ∧
    ("1%3A2" : String) ≠ "1:2" ∧
    String.mk (replacePy "1:2".toList ['-'] [':']) = "1:2" :=
  ⟨by rfl, by rfl, by rfl, by decide, by rfl⟩

/-- C7 amended: when the URL's node-id parameter is written without colons
(digits and hyphens), the extracted identifier is the captured text itself
and the lookup key used against the response's images mapping is exactly its
colon-delimited form (hyphens replaced by colons).  When the parameter is
written with colons the code percent-encodes them and the lookup key is not
the colon-delimited form, as the counterexample shows. -/
theorem claim_c7_lookup_key_amended (url : String) (raw : List Char)
    (hsearch : searchNodeId url.toList = some raw)
    (hnocolon : ∀ c ∈ raw, c ≠ ':') :
    get_frame_id_from_url url = some (String.mk raw) ∧
    figma_image_lookup_key (String.mk raw) = String.mk (replacePy raw ['-'] [':']) := by
  have hocc : occursInL [':'] raw = false := not_occurs_single_of_forall_ne hnocolon
  constructor
  · unfold get_frame_id_from_url
    rw [hsearch]
    show some (String.mk (replacePy raw [':'] "%3A".toList)) = some (String.mk raw)
    rw [replacePy_of_not_occurs "%3A".toList hocc]
  · rfl

/-- Witness for C7 (amended) at a hyphen-written node-id. -/
theorem claim_c7_lookup_key_amended_witness :
    get_frame_id_from_url "https://figma.com/file/abc?node-id=14494-411" =
      some (String.mk "14494-411".toList) ∧
    figma_image_lookup_key (String.mk "14494-411".toList) =
      String.mk (replacePy "14494-411".toList ['-'] [':']) :=
  claim_c7_lookup_key_amended "https://figma.com/file/abc?node-id=14494-411"
    "14494-411".toList (by rfl) (by decide)

/-- C8 counterexample: the key "ab" occurs exactly once in "aab", yet
substituting "b" for it twice gives "b" while substituting once gives "ab".
Per-key idempotence under the occurs-exactly-once hypothesis alone is
therefore false. -/
theorem claim_c8_idempotence_counterexample :
    countOccS "aab" "ab" = 1 ∧
    replacePyS (replacePyS "aab" "ab" "b") "ab" "b" ≠ replacePyS "aab" "ab" "b" := by
  decide

/-- C8 amended: applying the same key/value substitution twice produces the
same text as applying it once, given the key occurs exactly once in the
template and — the hypothesis the counterexample forces — the key does not
occur in the once-substituted text. -/
theorem claim_c8_replace_idempotent_amended (t k v : String)
    (_hcount : countOccS t k = 1)
    (hres : occursInS k (replacePyS t k v) = false) :
    replacePyS (replacePyS t k v) k v = replacePyS t k v := by
  have hres' : occursInL k.toList (replacePy t.toList k.toList v.toList) = false := hres
  show String.mk (replacePy (replacePy t.toList k.toList v.toList) k.toList v.toList) =
    String.mk (replacePy t.toList k.toList v.toList)
  rw [replacePy_of_not_occurs v.toList hres']

/-- Witness for C8 (amended): a concrete single-occurrence substitution whose
value does not reintroduce the key is idempotent. -/
theorem claim_c8_replace_idempotent_amended_witness :
    countOccS "-K-" "K" = 1 ∧
    occursInS "K" (replacePyS "-K-" "K" "w") = false ∧
    replacePyS (replacePyS "-K-" "K" "w") "K" "w" = replacePyS "-K-" "K" "w" :=
  ⟨by decide, by decide,
   claim_c8_replace_idempotent_amended "-K-" "K" "w" (by decide) (by decide)⟩
